import Mathlib

/-!
Verification of the Clipbuddy clipboard-history manager (src/main.py)
against its natural-language specification.

The relevant Python code is shallowly embedded as executable Lean
definitions; each spec claim is then settled as a theorem about those
definitions.
-/

set_option maxHeartbeats 1000000

namespace Clipbuddy

/-! ## History store (SmartClipUI.on_clipboard_changed, lines 618-644)

The main window's `list_widget` is the in-memory history store; we model
it as a `List String`, index 0 = most recent. -/

/-- Whitespace characters stripped by Python's `str.strip()` (ASCII range). -/
def pyIsSpaceChar (c : Char) : Bool :=
  c = ' ' || c = '\t' || c = '\n' || c = '\r' || c = '\x0b' || c = '\x0c'

/-- Python truthiness test `text and text.strip()` at line 621: the text is
non-empty and contains at least one non-whitespace character. -/
def pushGuard (text : String) : Bool :=
  text.data.any (fun c => !(pyIsSpaceChar c))

/-- The duplicate-removal loop at lines 629-633: scan the list from index 0
and remove the first item whose text equals `text` (the loop `break`s after
the first hit). -/
def removeFirstMatch (text : String) : List String → List String
  | [] => []
  | x :: xs => if x = text then xs else x :: removeFirstMatch text xs

/-- The trim loop at lines 640-641:
`while count > max_stack_size: takeItem(count - 1)` — repeatedly drop the
last element while the length exceeds the bound. -/
def trimTail (maxSize : Nat) (l : List String) : List String :=
  if _h : maxSize < l.length then trimTail maxSize l.dropLast else l
termination_by l.length
decreasing_by simp only [List.length_dropLast]; omega

/-- `SmartClipUI.on_clipboard_changed` (lines 618-644), as a function of the
current `max_stack_size`, the new clipboard text and the current list:
guard on non-blank text, skip when the text is already at index 0, else
remove the first duplicate, insert at index 0 and trim the tail. -/
def on_clipboard_changed (maxSize : Nat) (text : String) (l : List String) :
    List String :=
  if !(pushGuard text) then l
  else if l.head? = some text then l
  else trimTail maxSize (text :: removeFirstMatch text l)

/-- A whole sequence of clipboard-change events, applied in order. -/
def pushAll (maxSize : Nat) (texts : List String) (l : List String) :
    List String :=
  texts.foldl (fun acc t => on_clipboard_changed maxSize t acc) l

/-! ### Basic lemmas about the embedded store operations -/

theorem removeFirstMatch_eq_erase (text : String) (l : List String) :
    removeFirstMatch text l = l.erase text := by
  induction l with
  | nil => rfl
  | cons x xs ih =>
      by_cases h : x = text
      · simp [removeFirstMatch, h, List.erase_cons]
      · simp [removeFirstMatch, h, List.erase_cons, ih]

theorem trimTail_eq_take_aux (maxSize fuel : Nat) :
    ∀ l : List String, l.length ≤ fuel → trimTail maxSize l = l.take maxSize := by
  induction fuel with
  | zero =>
      intro l hl
      have hnil : l = [] := List.eq_nil_of_length_eq_zero (Nat.le_zero.mp hl)
      subst hnil
      rw [trimTail]
      simp
  | succ n ih =>
      intro l hl
      rw [trimTail]
      split
      · next h =>
          rw [ih l.dropLast (by simp only [List.length_dropLast]; omega)]
          rw [List.dropLast_eq_take, List.take_take]
          congr 1
          omega
      · next h =>
          exact (List.take_of_length_le (by omega)).symm

theorem trimTail_eq_take (maxSize : Nat) (l : List String) :
    trimTail maxSize l = l.take maxSize :=
  trimTail_eq_take_aux maxSize l.length l (Nat.le_refl _)

theorem on_clipboard_changed_of_guard_false (maxSize : Nat) (text : String)
    (l : List String) (h : pushGuard text = false) :
    on_clipboard_changed maxSize text l = l := by
  simp [on_clipboard_changed, h]

theorem on_clipboard_changed_of_head (maxSize : Nat) (text : String)
    (l : List String) (h : l.head? = some text) :
    on_clipboard_changed maxSize text l = l := by
  unfold on_clipboard_changed
  rw [h]
  simp

theorem on_clipboard_changed_insert (maxSize : Nat) (text : String)
    (l : List String) (hg : pushGuard text = true) (hh : l.head? ≠ some text) :
    on_clipboard_changed maxSize text l = (text :: l.erase text).take maxSize := by
  unfold on_clipboard_changed
  rw [hg]
  simp only [Bool.not_true, Bool.false_eq_true, if_false]
  rw [if_neg hh, removeFirstMatch_eq_erase, trimTail_eq_take]

/-! ## Startup history load (SmartClipUI.load_clipboard_history, lines 576-585)

`ClipboardStorage.load_history` (lines 235-243) returns the persisted JSON
list as-is (or `[]` on absence/failure); `load_clipboard_history` then adds
every returned string to the list verbatim, falling back to the dummy seed
data (lines 795-813) when the returned list is empty. -/

/-- The seed entries inserted by `populate_dummy_data` (lines 795-813). -/
def dummy_items : List String :=
  [ "redeem.nvidia.com",
    "2012-07-10",
    "INTERVAL '1 month - 1 day'",
    "DATE_TRUNC('month', month + INTERVAL '1 month')",
    "SELECT GENERATE_SERIES(TIMESTAMP '2012-01-01', ...)",
    "'2012-08-31 01:00:00'",
    "'2012-09-02 00:00:00'",
    "TIMESTAMP",
    "select generate_series(timestamp '2012-10-01', ...)" ]

/-- `SmartClipUI.load_clipboard_history` (lines 576-585): a non-empty saved
list is inserted verbatim, with no dedup and no trimming; an empty one is
replaced by the dummy seed data. -/
def load_clipboard_history (saved : List String) : List String :=
  if saved.isEmpty then dummy_items else saved

/-! ## Overlay filtering (ClipboardOverlay.filter_list, lines 372-375)

`filter_list` hides every list item whose text does not contain the search
text as a case-insensitive substring:
`item.setHidden(text.lower() not in item.text().lower())`.
We embed Python's `.lower()` and the substring operator `in` on the
character lists, and model the filtered view as the subsequence of
non-hidden items. -/

/-- Python `s.lower()`, as a list of characters (ASCII case folding). -/
def lowerChars (s : String) : List Char :=
  s.data.map Char.toLower

/-- Auxiliary for the substring test: does `hay` start with `needle`? -/
def startsWithChars : List Char → List Char → Bool
  | [], _ => true
  | _ :: _, [] => false
  | a :: n, b :: h => a == b && startsWithChars n h

/-- Python's substring operator `needle in hay` on character lists. -/
def containsSub (needle : List Char) : List Char → Bool
  | [] => needle.isEmpty
  | b :: t => startsWithChars needle (b :: t) || containsSub needle t

/-- An item survives the filter iff `text.lower() in item.text().lower()`
(line 375, negated: the item is hidden exactly when this is false). -/
def matchesFilter (search item : String) : Bool :=
  containsSub (lowerChars search) (lowerChars item)

/-- The filtered view after `filter_list(search)`: the subsequence of the
overlay's items left visible. -/
def filter_list (search : String) (items : List String) : List String :=
  items.filter (fun s => matchesFilter search s)

/-! ## Overlay session state

The overlay (`ClipboardOverlay`) holds the snapshot `clipboard_items`, the
Qt list widget's current row (`-1` when no row is current) and the live
search text; `SmartClipUI` additionally tracks the overlay reference and
the ctrl-release hook (`ctrl_release_hook`). -/

structure OverlayState where
  items : List String
  cur : Int
  filter : String
  visible : Bool
  deriving DecidableEq

/-- Qt `currentItem()` text: `none` when no row is current (row `-1` or out
of range), otherwise the snapshot entry at the current row. -/
def currentItemText (o : OverlayState) : Option String :=
  if o.cur < 0 then none else o.items[o.cur.toNat]?

/-- A search-text change (`textChanged -> filter_list`, lines 372-375):
only the hidden flags are recomputed; the current row is left untouched. -/
def set_filter (search : String) (o : OverlayState) : OverlayState :=
  { o with filter := search }

/-- The row arithmetic of `cycle_next_item` (lines 894-896):
`next_row = (current_row + 1) % self.overlay.list_widget.count()`.
`none` models the Python `ZeroDivisionError` raised when the widget is
empty (`count() = 0`). -/
def cycleNextRow (count : Nat) (cur : Int) : Option Int :=
  if count = 0 then none else some ((cur + 1) % (count : Int))

/-- `n` consecutive cycle events on a widget of `count` rows. -/
def iterCycle (count : Nat) : Nat → Int → Option Int
  | 0, cur => some cur
  | n + 1, cur =>
    match cycleNextRow count cur with
    | none => none
    | some c => iterCycle count n c

/-- Externally observable side effects of the commit/cancel handlers:
a clipboard write (`clipboard.setText`), removal of the ctrl-release hook
(`keyboard.unhook`), and the scheduling of one paste emulation
(`QTimer.singleShot(100, self.simulate_paste)`). -/
inductive Effect where
  | setText (text : String)
  | unhookRelease
  | schedulePaste
  deriving DecidableEq

def isSetTextEffect : Effect → Bool
  | Effect.setText _ => true
  | _ => false

def isSchedulePasteEffect : Effect → Bool
  | Effect.schedulePaste => true
  | _ => false

/-- The controller state relevant to the selection session: the main-window
history list, the `max_stack_size` bound, the overlay reference (`none`
models `self.overlay is None`) and whether `ctrl_release_hook` is set. -/
structure AppState where
  history : List String
  maxStackSize : Nat
  overlay : Option OverlayState
  releaseHook : Bool
  deriving DecidableEq

/-- `SmartClipUI.cycle_next_item` (lines 891-896): guarded by
`self.overlay and self.overlay.isVisible()`; advances the current row
modulo the full widget count. `none` models the uncaught
`ZeroDivisionError` on an empty widget. -/
def cycle_next_item (st : AppState) : Option AppState :=
  match st.overlay with
  | none => some st
  | some o =>
    if o.visible then
      match cycleNextRow o.items.length o.cur with
      | none => none
      | some r => some { st with overlay := some { o with cur := r } }
    else some st

/-- `SmartClipUI.paste_and_close_overlay` (lines 942-964): if the overlay
is visible and has a current item, write its text to the clipboard, drop
the overlay reference, remove the release hook (when set) and schedule one
paste emulation; otherwise do nothing. Returns the new state together with
the emitted effects, in program order. -/
def paste_and_close_overlay (st : AppState) : AppState × List Effect :=
  match st.overlay with
  | none => (st, [])
  | some o =>
    if o.visible then
      match currentItemText o with
      | none => (st, [])
      | some t =>
        ({ st with overlay := none, releaseHook := false },
          Effect.setText t ::
            ((if st.releaseHook then [Effect.unhookRelease] else []) ++
              [Effect.schedulePaste]))
    else (st, [])

/-- The Escape path of `ClipboardOverlay.keyPressEvent` (lines 383-385):
`self.close()` merely hides the overlay window. The controller's overlay
reference and the ctrl-release hook are left as they are, and nothing is
written to the clipboard. -/
def cancel_overlay (st : AppState) : AppState × List Effect :=
  match st.overlay with
  | none => (st, [])
  | some o => ({ st with overlay := some { o with visible := false } }, [])

/-- The effect of `SmartClipUI.open_settings` (lines 990-1015) on the
store: `self.max_stack_size = dlg.spin_size.value()` updates the bound;
the handler then refreshes shortcuts and saves the settings file, but
never touches the in-memory history list. -/
def open_settings_set_max (n : Nat) (st : AppState) : AppState :=
  { st with maxStackSize := n }

/-! ### Lemmas about the substring test and the cycle arithmetic -/

theorem startsWithChars_iff (n : List Char) :
    ∀ h : List Char, startsWithChars n h = true ↔ n <+: h := by
  induction n with
  | nil => intro h; simp [startsWithChars]
  | cons a n ih =>
      intro h
      cases h with
      | nil => simp [startsWithChars]
      | cons b t => simp [startsWithChars, List.cons_prefix_cons, ih]

theorem containsSub_iff (n : List Char) :
    ∀ h : List Char, containsSub n h = true ↔ n <:+: h := by
  intro h
  induction h with
  | nil => simp [containsSub, List.isEmpty_iff]
  | cons b t ih =>
      rw [List.infix_cons_iff, containsSub]
      simp [startsWithChars_iff, ih]

theorem matchesFilter_eq_decide (search s : String) :
    matchesFilter search s = decide ((lowerChars search) <:+: (lowerChars s)) := by
  by_cases h : (lowerChars search) <:+: (lowerChars s)
  · rw [decide_eq_true h]
    exact (containsSub_iff _ _).mpr h
  · rw [decide_eq_false h]
    cases hc : matchesFilter search s
    · rfl
    · exact absurd ((containsSub_iff _ _).mp hc) h

theorem matchesFilter_empty (s : String) : matchesFilter "" s = true := by
  have : lowerChars "" = [] := rfl
  rw [matchesFilter, this]
  cases hl : lowerChars s with
  | nil => rfl
  | cons b t => simp [containsSub, startsWithChars]

theorem iterCycle_eq (count : Nat) (hc : 0 < count) :
    ∀ (n : Nat) (cur : Int), 0 ≤ cur → cur < count →
      iterCycle count n cur = some ((cur + n) % (count : Int)) := by
  intro n
  induction n with
  | zero =>
      intro cur h0 h1
      rw [iterCycle]
      rw [Int.natCast_zero, Int.add_zero, Int.emod_eq_of_lt h0 h1]
  | succ n ih =>
      intro cur h0 h1
      rw [iterCycle, cycleNextRow, if_neg (by omega)]
      dsimp only
      rw [ih ((cur + 1) % (count : Int))
          (Int.emod_nonneg _ (by omega)) (Int.emod_lt_of_pos _ (by omega))]
      rw [Int.emod_add_emod]
      congr 2
      push_cast
      ring

/-- One clipboard-change event preserves the no-duplicates invariant. -/
theorem nodup_on_clipboard_changed (maxSize : Nat) (text : String)
    (l : List String) (h : l.Nodup) :
    (on_clipboard_changed maxSize text l).Nodup := by
  by_cases hg : pushGuard text = true
  · by_cases hh : l.head? = some text
    · rw [on_clipboard_changed_of_head _ _ _ hh]; exact h
    · rw [on_clipboard_changed_insert _ _ _ hg hh]
      refine (List.take_sublist _ _).nodup ?_
      refine List.nodup_cons.mpr ⟨?_, h.erase text⟩
      intro hmem
      exact ((h.mem_erase_iff).mp hmem).1 rfl
  · rw [on_clipboard_changed_of_guard_false _ _ _ (by
      cases hgv : pushGuard text
      · rfl
      · exact absurd hgv hg)]
    exact h

/-- Any sequence of clipboard-change events preserves the no-duplicates
invariant. -/
theorem nodup_pushAll (maxSize : Nat) (texts : List String) :
    ∀ l : List String, l.Nodup → (pushAll maxSize texts l).Nodup := by
  induction texts with
  | nil => intro l h; exact h
  | cons t ts ih =>
      intro l h
      exact ih (on_clipboard_changed maxSize t l) (nodup_on_clipboard_changed maxSize t l h)

/-! ## Claims -/

/-- C1: for every history store (satisfying the store invariants: no
duplicate texts, length within the bound) and every non-empty,
non-whitespace text `t` present at some position `i > 0`, a
clipboard-change event for `t` moves `t` to index 0; the remaining entries
are the original sequence with just that occurrence of `t` removed (hence
their relative order is preserved, witnessed by the sublist fact), and the
result has no duplicates. -/
theorem move_to_front (maxSize : Nat) (t : String) (l : List String) (i : Nat)
    (hg : pushGuard t = true) (hnd : l.Nodup) (hlen : l.length ≤ maxSize)
    (hpos : 0 < i) (hi : l[i]? = some t) :
    on_clipboard_changed maxSize t l = t :: l.erase t ∧
    (on_clipboard_changed maxSize t l).Nodup ∧
    (l.erase t).Sublist l := by
  have hmem : t ∈ l := by
    obtain ⟨hlt, hget⟩ := List.getElem?_eq_some_iff.mp hi
    exact hget ▸ List.getElem_mem hlt
  have hh : l.head? ≠ some t := by
    intro hhead
    cases l with
    | nil => simp at hhead
    | cons a tl =>
        have ha : a = t := by simpa using hhead
        cases i with
        | zero => omega
        | succ j =>
            have hj : tl[j]? = some t := by simpa using hi
            have htl : t ∈ tl := by
              obtain ⟨hlt, hget⟩ := List.getElem?_eq_some_iff.mp hj
              exact hget ▸ List.getElem_mem hlt
            exact (List.nodup_cons.mp hnd).1 (ha ▸ htl)
  have hres : on_clipboard_changed maxSize t l = t :: l.erase t := by
    rw [on_clipboard_changed_insert maxSize t l hg hh]
    apply List.take_of_length_le
    rw [List.length_cons, List.length_erase_of_mem hmem]
    have : 0 < l.length := List.length_pos.mpr (List.ne_nil_of_mem hmem)
    omega
  exact ⟨hres, nodup_on_clipboard_changed maxSize t l hnd, List.erase_sublist t l⟩

theorem move_to_front_witness :
    on_clipboard_changed 10 "b" ["c", "b", "a"] = "b" :: (["c", "b", "a"].erase "b") ∧
    (on_clipboard_changed 10 "b" ["c", "b", "a"]).Nodup ∧
    ((["c", "b", "a"].erase "b").Sublist ["c", "b", "a"]) :=
  move_to_front 10 "b" ["c", "b", "a"] 1 (by decide) (by decide) (by decide)
    (by decide) (by decide)

/-- C2: starting from a store with no two equal entries, any sequence of
clipboard-change events leaves the store without two equal entries.
Equality is exact and case-sensitive: pushing "A" onto a store holding
"a" keeps both entries. -/
theorem dedup_invariant (maxSize : Nat) (texts : List String) (l : List String)
    (h : l.Nodup) :
    (pushAll maxSize texts l).Nodup ∧
    on_clipboard_changed 2 "A" ["a"] = ["A", "a"] := by
  refine ⟨nodup_pushAll maxSize texts l h, ?_⟩
  rw [on_clipboard_changed_insert 2 "A" ["a"] (by decide) (by decide)]
  decide

theorem dedup_invariant_witness :
    (pushAll 2 ["b"] ["a"]).Nodup ∧
    on_clipboard_changed 2 "A" ["a"] = ["A", "a"] :=
  dedup_invariant 2 ["b"] ["a"] (by decide)

/-- C3: pushing the text currently at index 0 is a no-op: the store is
returned unchanged, with no reordering and no duplicate inserted. (This
holds for every non-empty store: a blank top entry is already rejected by
the non-blank guard, and a non-blank one hits the index-0 check.) -/
theorem idempotent_top_push (maxSize : Nat) (t : String) (l : List String)
    (h : l.head? = some t) :
    on_clipboard_changed maxSize t l = l :=
  on_clipboard_changed_of_head maxSize t l h

theorem idempotent_top_push_witness :
    on_clipboard_changed 5 "x" ["x", "y"] = ["x", "y"] :=
  idempotent_top_push 5 "x" ["x", "y"] (by decide)

/-- A store exceeding the bound, as fed to the settings handler. -/
def stOverfull : AppState :=
  { history := ["a", "b", "c"], maxStackSize := 1000,
    overlay := none, releaseHook := false }

/-- C4 counterexample: with three entries in memory, lowering
`max_stack_size` to 2 through the settings dialog leaves all three entries
in place — the in-memory store is not trimmed, contradicting the claimed
immediate tail trim. -/
theorem settings_no_trim_counterexample :
    (open_settings_set_max 2 stOverfull).history = ["a", "b", "c"] ∧
    ¬ ((open_settings_set_max 2 stOverfull).history.length ≤
        (open_settings_set_max 2 stOverfull).maxStackSize) := by
  decide

/-- C4 amended: a clipboard-change event keeps the store within the bound
(given it was within the bound before, as the store invariant provides);
the settings update merely replaces the bound and leaves the in-memory
history untouched — the excess is only dropped by the trim loop of a later
inserting push, not by the settings handler. -/
theorem push_bound_settings_no_trim (maxSize : Nat) (t : String)
    (l : List String) (hlen : l.length ≤ maxSize) (n : Nat) (st : AppState) :
    (on_clipboard_changed maxSize t l).length ≤ maxSize ∧
    (open_settings_set_max n st).history = st.history := by
  refine ⟨?_, rfl⟩
  by_cases hg : pushGuard t = true
  · by_cases hh : l.head? = some t
    · rw [on_clipboard_changed_of_head maxSize t l hh]; exact hlen
    · rw [on_clipboard_changed_insert maxSize t l hg hh]
      rw [List.length_take]
      omega
  · rw [on_clipboard_changed_of_guard_false maxSize t l (by
      cases hgv : pushGuard t
      · rfl
      · exact absurd hgv hg)]
    exact hlen

theorem push_bound_settings_no_trim_witness :
    (on_clipboard_changed 2 "x" ["a", "b"]).length ≤ 2 ∧
    (open_settings_set_max 3 stOverfull).history = stOverfull.history :=
  push_bound_settings_no_trim 2 "x" ["a", "b"] (by decide) 3 stOverfull

/-- Overlay snapshot ["Apple", "banana"] with filter "ban" and the sole
matching entry (row 1) selected. -/
def overlayBan : OverlayState :=
  { items := ["Apple", "banana"], cur := 1, filter := "ban", visible := true }

def stCycle : AppState :=
  { history := ["Apple", "banana"], maxStackSize := 1000,
    overlay := some overlayBan, releaseHook := true }

/-- C5 counterexample: with snapshot ["Apple", "banana"] and filter "ban",
the filtered view is just ["banana"] (snapshot row 1), so by the claim a
cycle event would advance the cursor modulo 1 and keep it on "banana".
The code instead advances modulo the full widget count (2): row 1 → row 0,
landing on "Apple", an entry hidden by the filter. -/
theorem cycle_ignores_filter_counterexample :
    filter_list "ban" ["Apple", "banana"] = ["banana"] ∧
    cycle_next_item stCycle =
      some { stCycle with overlay := some { overlayBan with cur := 0 } } ∧
    matchesFilter "ban" "Apple" = false := by
  decide

/-- C5 amended: a repeated primary-combo event while the overlay is open
advances the current row to `(cur + 1) mod count(snapshot)` — the full
snapshot count, ignoring the filter; consequently, with `N` snapshot
entries, `N` consecutive cycle events return the cursor to its start, and
an empty snapshot makes the handler fail with a division error (modeled
`none`) instead of a graceful no-op. -/
theorem cycle_mod_snapshot (st : AppState) (o : OverlayState)
    (h1 : st.overlay = some o) (h2 : o.visible = true)
    (h3 : 0 < o.items.length) (cur : Int) (hc0 : 0 ≤ cur)
    (hc1 : cur < o.items.length) :
    cycle_next_item st =
      some { st with overlay := some { o with cur := (o.cur + 1) % (o.items.length : Int) } } ∧
    iterCycle o.items.length o.items.length cur = some cur ∧
    (∀ c : Int, cycleNextRow 0 c = none) := by
  refine ⟨?_, ?_, fun c => rfl⟩
  · unfold cycle_next_item
    rw [h1]
    dsimp only
    rw [h2]
    simp only [if_true]
    rw [cycleNextRow, if_neg (by omega)]
  · rw [iterCycle_eq o.items.length h3 o.items.length cur hc0 hc1]
    congr 1
    have h4 : cur + (o.items.length : Int) = cur + (o.items.length : Int) * 1 := by
      ring
    rw [h4, Int.add_mul_emod_self_left]
    exact Int.emod_eq_of_lt hc0 hc1

theorem cycle_mod_snapshot_witness :
    cycle_next_item stCycle =
      some { stCycle with overlay := some { overlayBan with cur := (overlayBan.cur + 1) % (overlayBan.items.length : Int) } } ∧
    iterCycle overlayBan.items.length overlayBan.items.length 1 = some 1 ∧
    (∀ c : Int, cycleNextRow 0 c = none) :=
  cycle_mod_snapshot stCycle overlayBan rfl rfl (by decide) 1 (by decide)
    (by decide)

/-- Overlay snapshot ["Apple", "banana"] with row 0 ("Apple") selected and
no filter yet. -/
def overlayFresh : OverlayState :=
  { items := ["Apple", "banana"], cur := 0, filter := "", visible := true }

/-- C6 counterexample: typing the filter "ban" hides the selected entry
"Apple" (it does not match), yet the current row stays 0 and the current
item remains "Apple" — the cursor is not reset to the filtered view, whose
sole entry is "banana". -/
theorem filter_keeps_cursor_counterexample :
    (set_filter "ban" overlayFresh).cur = 0 ∧
    currentItemText (set_filter "ban" overlayFresh) = some "Apple" ∧
    matchesFilter "ban" "Apple" = false ∧
    filter_list "ban" (set_filter "ban" overlayFresh).items = ["banana"] := by
  decide

/-- C6 amended: a filter update recomputes the filtered view as exactly
the subsequence of snapshot entries containing the filter string as a
case-insensitive substring (the empty filter yields the full snapshot
unchanged), but it leaves the cursor untouched — even when the previously
selected entry is filtered out, the current row is not reset. -/
theorem filter_view_exact_cursor_unchanged :
    (∀ (search : String) (items : List String),
        filter_list search items =
          items.filter (fun s => decide ((lowerChars search) <:+: (lowerChars s)))) ∧
    (∀ items : List String, filter_list "" items = items) ∧
    (∀ (search : String) (o : OverlayState), (set_filter search o).cur = o.cur) := by
  refine ⟨?_, ?_, fun search o => rfl⟩
  · intro search items
    unfold filter_list
    congr 1
    funext s
    exact matchesFilter_eq_decide search s
  · intro items
    unfold filter_list
    refine List.filter_eq_self.mpr ?_
    intro a _
    exact matchesFilter_empty a

/-- The overlay after the C6 scenario: filter "ban" active, but the hidden
entry "Apple" (row 0) is still the current item. -/
def overlayHiddenCurrent : OverlayState :=
  { items := ["Apple", "banana"], cur := 0, filter := "ban", visible := true }

def stCommit : AppState :=
  { history := ["Apple", "banana"], maxStackSize := 1000,
    overlay := some overlayHiddenCurrent, releaseHook := true }

/-- C7 counterexample: the filtered view is the non-empty ["banana"], so by
the claim a commit writes a filtered-view entry; but with the hidden row 0
current (reachable because a filter update never moves the cursor), the
commit writes "Apple", which does not belong to the filtered view. -/
theorem commit_writes_hidden_counterexample :
    filter_list "ban" overlayHiddenCurrent.items = ["banana"] ∧
    (paste_and_close_overlay stCommit).2 =
      [Effect.setText "Apple", Effect.unhookRelease, Effect.schedulePaste] ∧
    ("Apple" ∈ filter_list "ban" overlayHiddenCurrent.items → False) := by
  decide

/-- C7 amended: whenever the overlay is open and some row is current, a
commit event emits exactly one clipboard write — carrying the snapshot
entry at the current row, which need not belong to the filtered view —
and schedules exactly one paste emulation. -/
theorem commit_writes_once (st : AppState) (o : OverlayState) (t : String)
    (h1 : st.overlay = some o) (h2 : o.visible = true)
    (h3 : currentItemText o = some t) :
    ((paste_and_close_overlay st).2.filter isSetTextEffect) = [Effect.setText t] ∧
    ((paste_and_close_overlay st).2.countP isSchedulePasteEffect) = 1 := by
  unfold paste_and_close_overlay
  rw [h1]
  dsimp only
  rw [h2]
  simp only [if_true]
  rw [h3]
  dsimp only
  cases hr : st.releaseHook <;>
    simp [isSetTextEffect, isSchedulePasteEffect, List.countP_cons, List.countP_nil,
      List.filter]

theorem commit_writes_once_witness :
    ((paste_and_close_overlay stCommit).2.filter isSetTextEffect) =
      [Effect.setText "Apple"] ∧
    ((paste_and_close_overlay stCommit).2.countP isSchedulePasteEffect) = 1 :=
  commit_writes_once stCommit overlayHiddenCurrent "Apple" rfl rfl (by decide)

/-- An open session with the release hook armed, about to be cancelled. -/
def stCancel : AppState :=
  { history := ["x"], maxStackSize := 1000,
    overlay := some { items := ["x"], cur := 0, filter := "", visible := true },
    releaseHook := true }

/-- C8 counterexample: cancelling (Escape) this open session emits no
effect at all — in particular no unhook of the modifier-release watch —
and leaves the release hook registered, contradicting the claim that the
watch is stopped before the cancel completes. -/
theorem cancel_keeps_hook_counterexample :
    (cancel_overlay stCancel).2 = [] ∧
    (cancel_overlay stCancel).1.releaseHook = true := by
  decide

/-- C8 amended: a cancel event never writes to the clipboard (it emits no
effects), but it does not stop the modifier-release watch — the hook stays
exactly as it was; a modifier-release event arriving after the cancel is
nevertheless harmless, because the handler finds the overlay no longer
visible and emits nothing. -/
theorem cancel_never_writes (st : AppState) (o : OverlayState)
    (h : st.overlay = some o) :
    (cancel_overlay st).2 = [] ∧
    (cancel_overlay st).1.releaseHook = st.releaseHook ∧
    (paste_and_close_overlay (cancel_overlay st).1).2 = [] := by
  unfold cancel_overlay
  rw [h]
  dsimp only
  refine ⟨rfl, rfl, ?_⟩
  unfold paste_and_close_overlay
  simp

theorem cancel_never_writes_witness :
    (cancel_overlay stCancel).2 = [] ∧
    (cancel_overlay stCancel).1.releaseHook = stCancel.releaseHook ∧
    (paste_and_close_overlay (cancel_overlay stCancel).1).2 = [] :=
  cancel_never_writes stCancel
    { items := ["x"], cur := 0, filter := "", visible := true } rfl

/-- C9: startup load inserts the persisted entries verbatim — no dedup and
no bound enforcement — so a persisted list with duplicate texts yields a
store violating uniqueness, and a persisted list longer than the default
`max_size` of 1000 yields a store exceeding the bound. -/
theorem load_verbatim_no_invariants :
    (∀ saved : List String, saved ≠ [] → load_clipboard_history saved = saved) ∧
    ¬ (load_clipboard_history ["dup", "dup"]).Nodup ∧
    1000 < (load_clipboard_history (List.replicate 1001 "x")).length := by
  refine ⟨?_, by decide, ?_⟩
  · intro saved h
    unfold load_clipboard_history
    rw [if_neg (by simp [List.isEmpty_iff, h])]
  · have hne : ¬ ((List.replicate 1001 "x").isEmpty = true) := by
      rw [List.isEmpty_iff]
      intro hcontra
      have hlen := congrArg List.length hcontra
      rw [List.length_replicate] at hlen
      simp at hlen
    unfold load_clipboard_history
    rw [if_neg hne, List.length_replicate]
    omega

theorem load_verbatim_no_invariants_witness :
    load_clipboard_history ["dup", "dup"] = ["dup", "dup"] :=
  load_verbatim_no_invariants.1 ["dup", "dup"] (by decide)

/-- C10: a modifier-release (commit) event on an open overlay with no
current item (empty list) does nothing: no effect is emitted (clipboard
untouched, no paste scheduled, no unhook) and the state is unchanged — the
overlay stays open and the release watch stays registered. -/
theorem commit_empty_noop (st : AppState) (o : OverlayState)
    (h1 : st.overlay = some o) (h2 : o.visible = true)
    (h3 : currentItemText o = none) :
    paste_and_close_overlay st = (st, []) := by
  unfold paste_and_close_overlay
  rw [h1]
  dsimp only
  rw [h2]
  simp only [if_true]
  rw [h3]

/-- An open overlay over an empty snapshot: no current row. -/
def stEmptyOverlay : AppState :=
  { history := [], maxStackSize := 1000,
    overlay := some { items := [], cur := -1, filter := "", visible := true },
    releaseHook := true }

theorem commit_empty_noop_witness :
    paste_and_close_overlay stEmptyOverlay = (stEmptyOverlay, []) :=
  commit_empty_noop stEmptyOverlay
    { items := [], cur := -1, filter := "", visible := true } rfl rfl (by decide)

end Clipbuddy
